import Mathlib

/-!
Verification development for the music-matcher audio fingerprinting service.

The Rust sources (src/audio.rs, src/fingerprint.rs, src/database.rs) are
shallowly embedded below.  Machine floating-point values (f32/f64) are
modelled by exact rationals; `usize`/`u32` arithmetic is modelled on
Nat/Int with explicit wrap-around (`% 2^32`) where the source casts or
can overflow.  The FFT magnitude computation (Hann window + complex FFT +
norm, floating point) is not shallowly embeddable; it is abstracted as an
explicit parameter `mag : List ℚ → Nat → ℚ` giving, for a raw frame and
a bin index, the magnitude the source would store.  Everything framing
related (which frames are computed, matrix dimensions, zero
initialisation) is translated from the source.
-/

/-- Embeds src/audio.rs normalize_audio: the running fold
max(m, |s|) with initial value 0.0 computing the peak amplitude. -/
def max_amplitude (samples : List ℚ) : ℚ :=
  samples.foldl (fun m s => max m |s|) 0

/-- Embeds src/audio.rs normalize_audio: empty input gives empty output,
silent input (max amplitude 0) is returned unchanged, otherwise every
sample is divided by the max amplitude. -/
def normalize_audio (samples : List ℚ) : List ℚ :=
  if samples = [] then []
  else
    let maxAmp := max_amplitude samples
    if maxAmp = 0 then samples
    else samples.map (fun s => s / maxAmp)

/-- Embeds src/audio.rs downsample: when the original rate exceeds the
target rate, keep every r-th sample by nearest-lower-index selection,
r = original/target.  The f32 casts truncate toward zero on nonnegative
values, which is the Nat.floor applied here. -/
def downsample (samples : List ℚ) (originalRate targetRate : Nat) : List ℚ :=
  if originalRate ≤ targetRate then samples
  else
    let r : ℚ := (originalRate : ℚ) / (targetRate : ℚ)
    let newLen : Nat := ⌊(samples.length : ℚ) / r⌋₊
    (List.range newLen).map (fun (i : Nat) => samples.getD ⌊(i : ℚ) * r⌋₊ 0)

/-- Spectrogram value of src/fingerprint.rs: an Array2 of magnitudes,
embedded as dimensions plus a total indexing function (out-of-range
indices are never read by the embedded code paths). -/
structure Spectrogram where
  freqBins : Nat
  timeFrames : Nat
  data : Nat → Nat → ℚ

/-- Embeds src/fingerprint.rs compute_spectrogram for a magnitude model
`mag` (abstracting apply_hann_window + fft.process + Complex::norm on a
frame).  Faithful to the source: num_frames = saturating_sub(N,W)/H + 1
(so at least 1, even for N < W); the frame loop enumerates start indices
0, H, 2H, ... strictly below N−W, so a column is written only when
t·H < N−W and stays at its zero initialisation otherwise.  The Rust
function returns Result but has no error path; it is embedded as a plain
value. -/
def compute_spectrogram (mag : List ℚ → Nat → ℚ) (samples : List ℚ) : Spectrogram :=
  let n := samples.length
  let numFrames := (n - 1024) / 512 + 1
  { freqBins := 512
    timeFrames := numFrames
    data := fun f t =>
      if f < 512 ∧ t < numFrames ∧ t * 512 < n - 1024 then
        mag ((samples.drop (t * 512)).take 1024) f
      else 0 }

/-- Spectral peak record of src/fingerprint.rs. -/
structure SpectralPeak where
  freqBin : Nat
  timeFrame : Nat
  magnitude : ℚ
deriving DecidableEq

/-- Insertion step of a stable descending-by-magnitude sort, modelling the
comparator b.magnitude.partial_cmp(&a.magnitude) of
src/fingerprint.rs find_spectral_peaks (tie order among equal magnitudes
is unspecified by the spec and unused by every claim). -/
def insert_desc (p : SpectralPeak) : List SpectralPeak → List SpectralPeak
  | [] => [p]
  | q :: rest => if q.magnitude < p.magnitude then p :: q :: rest else q :: insert_desc p rest

/-- Stable descending-by-magnitude sort used by find_spectral_peaks. -/
def sort_desc : List SpectralPeak → List SpectralPeak
  | [] => []
  | p :: rest => insert_desc p (sort_desc rest)

/-- Embeds the candidate-collection loops of src/fingerprint.rs
find_spectral_peaks: outer t in 1..T−1, inner f in 1..F−1, accepting a
cell whose magnitude exceeds 0.1 and strictly exceeds its four orthogonal
neighbors.  (For T = 0 or F = 0 the Rust range bound underflows and the
program panics in debug builds; no peak is produced on any build, and the
model returns the empty list.) -/
def peak_candidates (g : Spectrogram) : List SpectralPeak :=
  (List.range' 1 (g.timeFrames - 1 - 1)).flatMap (fun t =>
    (List.range' 1 (g.freqBins - 1 - 1)).filterMap (fun f =>
      let current := g.data f t
      if 1/10 < current ∧ g.data (f-1) t < current ∧ g.data (f+1) t < current ∧
         g.data f (t-1) < current ∧ g.data f (t+1) < current
      then some ⟨f, t, current⟩ else none))

/-- Embeds src/fingerprint.rs find_spectral_peaks: collect candidates,
sort by magnitude descending, truncate to 200. -/
def find_spectral_peaks (g : Spectrogram) : List SpectralPeak :=
  (sort_desc (peak_candidates g)).take 200

/-- Embeds the hash packing of src/fingerprint.rs generate_hashes:
freq1/freq2 are the `as u32` truncations of the peak bins, time_diff is
the u32 truncation of the usize subtraction t₂ − t₁ (which wraps modulo
2^64 in release builds when t₂ < t₁, hence modulo 2^32 after the cast;
debug builds panic there), and the hash is (freq1 << 16) | (freq2 << 8) |
time_diff on u32. -/
def landmark_hash (p1 p2 : SpectralPeak) : Nat :=
  (((p1.freqBin % 4294967296) <<< 16) % 4294967296) |||
  (((p2.freqBin % 4294967296) <<< 8) % 4294967296) |||
  (((p2.timeFrame : Int) - (p1.timeFrame : Int)) % 4294967296).toNat

/-- Embeds src/fingerprint.rs generate_hashes: every anchor peak is
paired with its next up-to-5 successors in list order, guarded only by
the upper-window test t₂ ≤ t₁ + 10. -/
def generate_hashes : List SpectralPeak → List Nat
  | [] => []
  | p1 :: rest =>
    ((rest.take 5).filterMap (fun p2 =>
      if p2.timeFrame ≤ p1.timeFrame + 10 then some (landmark_hash p1 p2) else none))
    ++ generate_hashes rest

/-- Fingerprint record of src/fingerprint.rs. -/
structure AudioFingerprint where
  hashes : List Nat
  duration : ℚ
deriving DecidableEq

/-- Embeds src/fingerprint.rs generate_fingerprint: reject empty input,
normalize, downsample 44100 → 11025, spectrogram, peaks, hashes, and a
duration of len/44100 seconds. -/
def generate_fingerprint (mag : List ℚ → Nat → ℚ) (samples : List ℚ) :
    Except String AudioFingerprint :=
  if samples = [] then .error "Empty audio samples"
  else
    let normalized := normalize_audio samples
    let downsampled := downsample normalized 44100 11025
    let spectrogram := compute_spectrogram mag downsampled
    let peaks := find_spectral_peaks spectrogram
    let hashes := generate_hashes peaks
    .ok ⟨hashes, (samples.length : ℚ) / 44100⟩

/-- Embeds src/fingerprint.rs calculate_similarity: 0 when either hash
list is empty, otherwise |S₁ ∩ S₂| / |S₁ ∪ S₂| over the deduplicated
hash sets, with the (dead) union-empty guard of the source. -/
def calculate_similarity (fingerprint1 fingerprint2 : AudioFingerprint) : ℚ :=
  if fingerprint1.hashes = [] ∨ fingerprint2.hashes = [] then 0
  else
    let set1 := fingerprint1.hashes.toFinset
    let set2 := fingerprint2.hashes.toFinset
    let intersection := (set1 ∩ set2).card
    let union := (set1 ∪ set2).card
    if union = 0 then 0 else (intersection : ℚ) / (union : ℚ)

/-- Jaccard coefficient as the specification words it: the ratio of the
intersection cardinality to the union cardinality of two sets. -/
def jaccardSimilarity (A B : Finset Nat) : ℚ :=
  ((A ∩ B).card : ℚ) / ((A ∪ B).card : ℚ)

/-- Catalog entry as scanned by src/database.rs find_match (a decoded
songs row with its stored fingerprint). -/
structure CatalogEntry where
  id : Int
  title : String
  artist : String
  fingerprint : AudioFingerprint

/-- Embeds the scan loop of src/database.rs find_match: best_match starts
None with best_similarity 0.0, and an entry replaces it only when its
similarity strictly exceeds both the running best and 0.3. -/
def find_match_go (q : AudioFingerprint) :
    List CatalogEntry → Option (Int × String × String × ℚ) → ℚ →
    Option (Int × String × String × ℚ)
  | [], best, _ => best
  | e :: rest, best, bestSim =>
    let s := calculate_similarity q e.fingerprint
    if bestSim < s ∧ 3/10 < s then
      find_match_go q rest (some (e.id, e.title, e.artist, s)) s
    else
      find_match_go q rest best bestSim

/-- Embeds src/database.rs find_match on a scanned entry list. -/
def find_match (q : AudioFingerprint) (entries : List CatalogEntry) :
    Option (Int × String × String × ℚ) :=
  find_match_go q entries none 0

/-- Proof-side restatement of the find_match scan: the entry it keeps,
computed without the accumulator (a later entry wins only when strictly
better than the bound b, which is the similarity of the entry kept so
far). -/
def find_best_aux (q : AudioFingerprint) (b : ℚ) : List CatalogEntry → Option CatalogEntry
  | [] => none
  | e :: rest =>
    if b < calculate_similarity q e.fingerprint ∧
       3/10 < calculate_similarity q e.fingerprint then
      some ((find_best_aux q (calculate_similarity q e.fingerprint) rest).getD e)
    else find_best_aux q b rest

/-! ### Similarity lemmas -/

lemma calculate_similarity_empty (fp1 fp2 : AudioFingerprint)
    (h : fp1.hashes = [] ∨ fp2.hashes = []) : calculate_similarity fp1 fp2 = 0 := by
  unfold calculate_similarity
  rw [if_pos h]

lemma union_card_ne_zero (fp1 fp2 : AudioFingerprint) (h1 : fp1.hashes ≠ []) :
    (fp1.hashes.toFinset ∪ fp2.hashes.toFinset).card ≠ 0 := by
  obtain ⟨x, hx⟩ := List.exists_mem_of_ne_nil _ h1
  exact Finset.card_ne_zero_of_mem (Finset.mem_union_left _ (List.mem_toFinset.mpr hx))

lemma calculate_similarity_nonempty (fp1 fp2 : AudioFingerprint)
    (h1 : fp1.hashes ≠ []) (h2 : fp2.hashes ≠ []) :
    calculate_similarity fp1 fp2 =
      jaccardSimilarity fp1.hashes.toFinset fp2.hashes.toFinset := by
  unfold calculate_similarity jaccardSimilarity
  rw [if_neg (by tauto)]
  simp only []
  rw [if_neg (union_card_ne_zero fp1 fp2 h1)]

/-! ### Matcher lemmas -/

lemma find_match_go_eq (q : AudioFingerprint) :
    ∀ (entries : List CatalogEntry) (best : Option (Int × String × String × ℚ)) (bSim : ℚ),
      find_match_go q entries best bSim =
        match find_best_aux q bSim entries with
        | some e => some (e.id, e.title, e.artist, calculate_similarity q e.fingerprint)
        | none => best := by
  intro entries
  induction entries with
  | nil => intro best bSim; rfl
  | cons e rest ih =>
    intro best bSim
    simp only [find_match_go, find_best_aux]
    by_cases h : bSim < calculate_similarity q e.fingerprint ∧
        3/10 < calculate_similarity q e.fingerprint
    · rw [if_pos h, if_pos h, ih]
      cases hfb : find_best_aux q (calculate_similarity q e.fingerprint) rest with
      | none => simp [hfb]
      | some e1 => simp [hfb]
    · rw [if_neg h, if_neg h, ih]

lemma find_best_aux_none (q : AudioFingerprint) :
    ∀ (entries : List CatalogEntry) (b : ℚ),
      (find_best_aux q b entries = none ↔
        ∀ e ∈ entries, calculate_similarity q e.fingerprint ≤ b ∨
          calculate_similarity q e.fingerprint ≤ 3/10) := by
  intro entries
  induction entries with
  | nil => intro b; simp [find_best_aux]
  | cons e rest ih =>
    intro b
    simp only [find_best_aux]
    by_cases h : b < calculate_similarity q e.fingerprint ∧
        3/10 < calculate_similarity q e.fingerprint
    · rw [if_pos h]
      simp only [List.mem_cons]
      constructor
      · intro hc; exact absurd hc (by simp)
      · intro hall
        rcases hall e (Or.inl rfl) with h1 | h1 <;> [exact absurd h.1 (not_lt.mpr h1); exact absurd h.2 (not_lt.mpr h1)]
    · rw [if_neg h, ih b]
      constructor
      · intro hall x hx
        rcases List.mem_cons.mp hx with rfl | hx2
        · rcases not_and_or.mp h with h1 | h1
          · exact Or.inl (not_lt.mp h1)
          · exact Or.inr (not_lt.mp h1)
        · exact hall x hx2
      · intro hall x hx
        exact hall x (List.mem_cons_of_mem _ hx)

lemma find_best_aux_some (q : AudioFingerprint) :
    ∀ (entries : List CatalogEntry) (b : ℚ) (e0 : CatalogEntry),
      find_best_aux q b entries = some e0 →
      ∃ l1 l2, entries = l1 ++ e0 :: l2 ∧
        b < calculate_similarity q e0.fingerprint ∧
        3/10 < calculate_similarity q e0.fingerprint ∧
        (∀ x ∈ entries, calculate_similarity q x.fingerprint ≤ calculate_similarity q e0.fingerprint) ∧
        (∀ x ∈ l1, calculate_similarity q x.fingerprint < calculate_similarity q e0.fingerprint) := by
  intro entries
  induction entries with
  | nil => intro b e0 h; simp [find_best_aux] at h
  | cons e rest ih =>
    intro b e0 h
    rw [find_best_aux] at h
    by_cases hc : b < calculate_similarity q e.fingerprint ∧
        3/10 < calculate_similarity q e.fingerprint
    · rw [if_pos hc] at h
      cases hfb : find_best_aux q (calculate_similarity q e.fingerprint) rest with
      | none =>
        rw [hfb] at h
        simp only [Option.getD, Option.some.injEq] at h
        subst h
        refine ⟨[], rest, rfl, hc.1, hc.2, ?_, by simp⟩
        intro x hx
        rcases List.mem_cons.mp hx with rfl | hx2
        · exact le_refl _
        · rcases (find_best_aux_none q rest _).mp hfb x hx2 with h1 | h1
          · exact h1
          · exact le_of_lt (lt_of_le_of_lt h1 hc.2)
      | some e1 =>
        rw [hfb] at h
        simp only [Option.getD, Option.some.injEq] at h
        subst h
        obtain ⟨l1, l2, hsplit, hb, h310, hmax, hstrict⟩ := ih _ _ hfb
        refine ⟨e :: l1, l2, by rw [hsplit]; rfl, lt_trans hc.1 hb, h310, ?_, ?_⟩
        · intro x hx
          rcases List.mem_cons.mp hx with rfl | hx2
          · exact le_of_lt hb
          · exact hmax x hx2
        · intro x hx
          rcases List.mem_cons.mp hx with rfl | hx2
          · exact hb
          · exact hstrict x hx2
    · rw [if_neg hc] at h
      obtain ⟨l1, l2, hsplit, hb, h310, hmax, hstrict⟩ := ih _ _ h
      have hlt : calculate_similarity q e.fingerprint < calculate_similarity q e0.fingerprint := by
        rcases not_and_or.mp hc with h1 | h1
        · exact lt_of_le_of_lt (not_lt.mp h1) hb
        · exact lt_of_le_of_lt (not_lt.mp h1) h310
      refine ⟨e :: l1, l2, by rw [hsplit]; rfl, hb, h310, ?_, ?_⟩
      · intro x hx
        rcases List.mem_cons.mp hx with rfl | hx2
        · exact le_of_lt hlt
        · exact hmax x hx2
      · intro x hx
        rcases List.mem_cons.mp hx with rfl | hx2
        · exact hlt
        · exact hstrict x hx2

/-- C6: calculate_similarity returns 0 when either hash list is empty
and otherwise the Jaccard coefficient of the deduplicated hash sets. -/
theorem c6_similarity_is_jaccard (fp1 fp2 : AudioFingerprint) :
    calculate_similarity fp1 fp2 =
      if fp1.hashes = [] ∨ fp2.hashes = [] then 0
      else jaccardSimilarity fp1.hashes.toFinset fp2.hashes.toFinset := by
  by_cases h : fp1.hashes = [] ∨ fp2.hashes = []
  · rw [if_pos h, calculate_similarity_empty _ _ h]
  · push_neg at h
    rw [if_neg (by tauto), calculate_similarity_nonempty _ _ h.1 h.2]

lemma toFinset_card_ne_zero (l : List Nat) (h : l ≠ []) : l.toFinset.card ≠ 0 := by
  obtain ⟨x, hx⟩ := List.exists_mem_of_ne_nil _ h
  exact Finset.card_ne_zero_of_mem (List.mem_toFinset.mpr hx)

/-- C7: similarity is within [0,1], self-similarity of a fingerprint with
at least one hash is 1, and similarity is symmetric. -/
theorem c7_similarity_algebra (fp1 fp2 : AudioFingerprint) :
    0 ≤ calculate_similarity fp1 fp2 ∧ calculate_similarity fp1 fp2 ≤ 1 ∧
    (fp1.hashes ≠ [] → calculate_similarity fp1 fp1 = 1) ∧
    calculate_similarity fp1 fp2 = calculate_similarity fp2 fp1 := by
  refine ⟨?_, ?_, ?_, ?_⟩
  · by_cases h : fp1.hashes = [] ∨ fp2.hashes = []
    · rw [calculate_similarity_empty _ _ h]
    · push_neg at h
      rw [calculate_similarity_nonempty _ _ h.1 h.2]
      unfold jaccardSimilarity
      positivity
  · by_cases h : fp1.hashes = [] ∨ fp2.hashes = []
    · rw [calculate_similarity_empty _ _ h]; norm_num
    · push_neg at h
      rw [calculate_similarity_nonempty _ _ h.1 h.2]
      unfold jaccardSimilarity
      have hu : (0:ℚ) < ((fp1.hashes.toFinset ∪ fp2.hashes.toFinset).card : ℚ) := by
        have := union_card_ne_zero fp1 fp2 h.1
        exact_mod_cast Nat.pos_of_ne_zero this
      rw [div_le_one hu]
      exact_mod_cast Finset.card_le_card
        (Finset.inter_subset_left.trans Finset.subset_union_left)
  · intro h
    rw [calculate_similarity_nonempty _ _ h h]
    unfold jaccardSimilarity
    rw [Finset.inter_self, Finset.union_self]
    apply div_self
    have := toFinset_card_ne_zero _ h
    exact_mod_cast this
  · by_cases h1 : fp1.hashes = []
    · rw [calculate_similarity_empty _ _ (Or.inl h1),
        calculate_similarity_empty _ _ (Or.inr h1)]
    · by_cases h2 : fp2.hashes = []
      · rw [calculate_similarity_empty _ _ (Or.inr h2),
          calculate_similarity_empty _ _ (Or.inl h2)]
      · rw [calculate_similarity_nonempty _ _ h1 h2,
          calculate_similarity_nonempty _ _ h2 h1]
        unfold jaccardSimilarity
        rw [Finset.inter_comm, Finset.union_comm]

/-- C7 witness: the self-similarity clause instantiated on the
fingerprint with hash list [7]. -/
theorem c7_similarity_witness :
    (⟨[7], 0⟩ : AudioFingerprint).hashes ≠ [] ∧
    calculate_similarity ⟨[7], 0⟩ ⟨[7], 0⟩ = 1 :=
  ⟨by decide, (c7_similarity_algebra ⟨[7], 0⟩ ⟨[7], 0⟩).2.2.1 (by decide)⟩

/-- C8: find_match returns none exactly when every entry scores at most
0.3; otherwise it returns the earliest entry of maximal similarity,
together with that similarity. -/
theorem c8_find_match_spec (q : AudioFingerprint) (entries : List CatalogEntry) :
    (find_match q entries = none ↔
      ∀ e ∈ entries, calculate_similarity q e.fingerprint ≤ 3/10) ∧
    (∀ r, find_match q entries = some r →
      ∃ l1 e l2, entries = l1 ++ e :: l2 ∧
        r = (e.id, e.title, e.artist, calculate_similarity q e.fingerprint) ∧
        3/10 < calculate_similarity q e.fingerprint ∧
        (∀ x ∈ entries,
          calculate_similarity q x.fingerprint ≤ calculate_similarity q e.fingerprint) ∧
        (∀ x ∈ l1,
          calculate_similarity q x.fingerprint < calculate_similarity q e.fingerprint)) := by
  have hgo := find_match_go_eq q entries none 0
  constructor
  · rw [find_match, hgo]
    cases hfb : find_best_aux q 0 entries with
    | none =>
      constructor
      · intro _ e he
        rcases (find_best_aux_none q entries 0).mp hfb e he with h | h
        · linarith
        · exact h
      · intro _; rfl
    | some e1 =>
      obtain ⟨l1, l2, hsplit, _, h310, _, _⟩ := find_best_aux_some q entries 0 e1 hfb
      constructor
      · intro hcontra; exact absurd hcontra (by simp)
      · intro hall
        have := hall e1 (hsplit ▸ List.mem_append_right _ (List.mem_cons_self _ _))
        linarith
  · intro r hr
    rw [find_match, hgo] at hr
    cases hfb : find_best_aux q 0 entries with
    | none => rw [hfb] at hr; exact absurd hr (by simp)
    | some e1 =>
      rw [hfb] at hr
      simp only [Option.some.injEq] at hr
      obtain ⟨l1, l2, hsplit, _, h310, hmax, hstrict⟩ := find_best_aux_some q entries 0 e1 hfb
      exact ⟨l1, e1, l2, hsplit, hr.symm, h310, hmax, hstrict⟩

/-- C10: a query fingerprint with no hashes has similarity 0 to every
stored fingerprint, and find_match returns none on every catalog. -/
theorem c10_empty_query_no_match (q : AudioFingerprint) (entries : List CatalogEntry)
    (h : q.hashes = []) :
    find_match q entries = none ∧
    ∀ e ∈ entries, calculate_similarity q e.fingerprint = 0 := by
  have hsim : ∀ e : CatalogEntry, calculate_similarity q e.fingerprint = 0 :=
    fun e => calculate_similarity_empty _ _ (Or.inl h)
  refine ⟨?_, fun e _ => hsim e⟩
  rw [find_match, find_match_go_eq q entries none 0]
  have hnone : find_best_aux q 0 entries = none :=
    (find_best_aux_none q entries 0).mpr (fun e _ => Or.inl (le_of_eq (hsim e)))
  rw [hnone]

/-- C10 witness: the empty-hash query against a one-entry catalog. -/
theorem c10_empty_query_witness :
    (⟨[], 5⟩ : AudioFingerprint).hashes = [] ∧
    find_match ⟨[], 5⟩ [⟨1, "a", "b", ⟨[7], 0⟩⟩] = none :=
  ⟨rfl, (c10_empty_query_no_match ⟨[], 5⟩ [⟨1, "a", "b", ⟨[7], 0⟩⟩] rfl).1⟩

/-- C8 witness: a one-entry catalog whose entry matches the query with
similarity 1, so find_match returns it with its score. -/
theorem c8_find_match_witness :
    find_match ⟨[7], 0⟩ [⟨1, "a", "b", ⟨[7], 0⟩⟩] = some (1, "a", "b", 1) ∧
    ∃ l1 e l2, ([⟨1, "a", "b", ⟨[7], 0⟩⟩] : List CatalogEntry) = l1 ++ e :: l2 ∧
      ((1 : Int), "a", "b", (1 : ℚ)) =
        (e.id, e.title, e.artist, calculate_similarity ⟨[7], 0⟩ e.fingerprint) ∧
      3/10 < calculate_similarity ⟨[7], 0⟩ e.fingerprint ∧
      (∀ x ∈ ([⟨1, "a", "b", ⟨[7], 0⟩⟩] : List CatalogEntry),
        calculate_similarity ⟨[7], 0⟩ x.fingerprint ≤
          calculate_similarity ⟨[7], 0⟩ e.fingerprint) ∧
      (∀ x ∈ l1,
        calculate_similarity ⟨[7], 0⟩ x.fingerprint <
          calculate_similarity ⟨[7], 0⟩ e.fingerprint) := by
  have h : find_match ⟨[7], 0⟩ [⟨1, "a", "b", ⟨[7], 0⟩⟩] = some (1, "a", "b", 1) := by
    norm_num [find_match, find_match_go, calculate_similarity]
  exact ⟨h, (c8_find_match_spec ⟨[7], 0⟩ [⟨1, "a", "b", ⟨[7], 0⟩⟩]).2 _ h⟩

/-! ### Bit-layout lemmas for the landmark hash -/

lemma lor_shiftLeft_add (a b k : Nat) (h : b < 2 ^ k) : (a <<< k) ||| b = a * 2 ^ k + b := by
  rw [Nat.shiftLeft_eq, Nat.mul_comm a (2 ^ k)]
  exact (Nat.mul_add_lt_is_or h a).symm

lemma shiftLeft_lor_distrib (a b k : Nat) : (a <<< k) ||| (b <<< k) = (a ||| b) <<< k := by
  apply Nat.eq_of_testBit_eq
  intro i
  simp only [Nat.testBit_or, Nat.testBit_shiftLeft]
  rw [Bool.and_or_distrib_left]

lemma shiftLeft_16 (a : Nat) : a <<< 16 = a * 65536 := by
  rw [Nat.shiftLeft_eq]

lemma shiftLeft_8 (a : Nat) : a <<< 8 = a * 256 := by
  rw [Nat.shiftLeft_eq]

/-- C1: on the two-peak list with the anchor later in time than its
partner (possible since peaks are ordered by magnitude), the source does
not drop the pair: the usize subtraction wraps (release semantics; debug
builds panic) and a hash whose low byte is 253 ∉ [0,10] is emitted,
contradicting the documented drop of Δt < 0 pairs. -/
theorem c1_negative_dt_hash_emitted :
    generate_hashes [⟨1, 5, 5⟩, ⟨1, 2, 4⟩] = [4294967293] ∧
    ¬ ((4294967293 : Nat) % 256 ≤ 10) := by decide

/-- C3 counterexample: for the emitted pair with freq_i = 2 and
freq_j = 257 ≥ 256, the hash is 196865 = 0x30101, whose bits[31:16] are
3 ≠ freq_i = 2: the high slot is polluted by the ninth bit of freq_j,
so bits 31:16 do not depend only on freq_i. -/
theorem c3_layout_counterexample :
    generate_hashes [⟨2, 0, 5⟩, ⟨257, 1, 4⟩] = [196865] ∧
    (196865 : Nat) / 65536 ≠ 2 := by decide

/-- C3 amended: for an in-order pair (t_i ≤ t_j ≤ t_i + 10) with
16-bit frequency bins, the hash has bits[7:0] = Δt and
bits[15:8] = freq_j mod 256, but bits[31:16] equal freq_i ||| (freq_j / 256):
freq_j is shifted without first being truncated to 8 bits, so its ninth
bit lands in bit 16 of the hash. -/
theorem c3_hash_layout_amended (p1 p2 : SpectralPeak)
    (hf1 : p1.freqBin < 65536) (hf2 : p2.freqBin < 65536)
    (hlo : p1.timeFrame ≤ p2.timeFrame) (hhi : p2.timeFrame ≤ p1.timeFrame + 10) :
    landmark_hash p1 p2 % 256 = p2.timeFrame - p1.timeFrame ∧
    landmark_hash p1 p2 / 256 % 256 = p2.freqBin % 256 ∧
    landmark_hash p1 p2 / 65536 = p1.freqBin ||| p2.freqBin / 256 := by
  have p16 : (2 : Nat) ^ 16 = 65536 := by norm_num
  have p8 : (2 : Nat) ^ 8 = 256 := by norm_num
  have hdt10 : p2.timeFrame - p1.timeFrame ≤ 10 := by omega
  have hraw : landmark_hash p1 p2 =
      (p1.freqBin <<< 16) ||| (p2.freqBin <<< 8) ||| (p2.timeFrame - p1.timeFrame) := by
    unfold landmark_hash
    have e1 : p1.freqBin % 4294967296 = p1.freqBin := Nat.mod_eq_of_lt (by omega)
    have e2 : p2.freqBin % 4294967296 = p2.freqBin := Nat.mod_eq_of_lt (by omega)
    have e3 : (((p2.timeFrame : Int) - (p1.timeFrame : Int)) % 4294967296).toNat =
        p2.timeFrame - p1.timeFrame := by omega
    rw [e1, e2, e3]
    have e4 : (p1.freqBin <<< 16) % 4294967296 = p1.freqBin <<< 16 := by
      rw [shiftLeft_16]; exact Nat.mod_eq_of_lt (by omega)
    have e5 : (p2.freqBin <<< 8) % 4294967296 = p2.freqBin <<< 8 := by
      rw [shiftLeft_8]; exact Nat.mod_eq_of_lt (by omega)
    rw [e4, e5]
  have hsplit : p2.freqBin <<< 8 = ((p2.freqBin / 256) <<< 16) ||| ((p2.freqBin % 256) <<< 8) := by
    rw [lor_shiftLeft_add (p2.freqBin / 256) ((p2.freqBin % 256) <<< 8) 16
      (by rw [shiftLeft_8, p16]; omega)]
    rw [shiftLeft_8, shiftLeft_8, p16]
    omega
  have hval : landmark_hash p1 p2 =
      (p1.freqBin ||| p2.freqBin / 256) * 65536 +
        ((p2.freqBin % 256) * 256 + (p2.timeFrame - p1.timeFrame)) := by
    rw [hraw, hsplit, ← Nat.or_assoc, shiftLeft_lor_distrib, Nat.or_assoc,
      lor_shiftLeft_add (p2.freqBin % 256) (p2.timeFrame - p1.timeFrame) 8
        (by rw [p8]; omega),
      lor_shiftLeft_add (p1.freqBin ||| p2.freqBin / 256)
        ((p2.freqBin % 256) * 2 ^ 8 + (p2.timeFrame - p1.timeFrame)) 16
        (by rw [p8, p16]; omega)]
    rw [p8, p16]
  refine ⟨?_, ?_, ?_⟩ <;> rw [hval] <;> omega

/-- C3 witness: the amended layout evaluated on the pair with
freq_i = 2, freq_j = 257, Δt = 1. -/
theorem c3_hash_layout_witness :
    (2 : Nat) < 65536 ∧ (257 : Nat) < 65536 ∧
    landmark_hash ⟨2, 0, 5⟩ ⟨257, 1, 4⟩ / 65536 = 2 ||| 257 / 256 :=
  ⟨by decide, by decide,
    (c3_hash_layout_amended ⟨2, 0, 5⟩ ⟨257, 1, 4⟩ (by decide) (by decide)
      (by decide) (by decide)).2.2⟩

/-! ### Peak picker lemmas -/

lemma mem_insert_desc (p x : SpectralPeak) (l : List SpectralPeak) :
    x ∈ insert_desc p l ↔ x = p ∨ x ∈ l := by
  induction l with
  | nil => simp [insert_desc]
  | cons q rest ih =>
    simp only [insert_desc]
    by_cases h : q.magnitude < p.magnitude
    · rw [if_pos h]
      simp [List.mem_cons]
    · rw [if_neg h]
      simp [List.mem_cons, ih]
      tauto

lemma mem_sort_desc (x : SpectralPeak) (l : List SpectralPeak) :
    x ∈ sort_desc l ↔ x ∈ l := by
  induction l with
  | nil => simp [sort_desc]
  | cons q rest ih =>
    simp only [sort_desc]
    rw [mem_insert_desc]
    simp [List.mem_cons, ih]

lemma mem_peak_candidates (g : Spectrogram) (p : SpectralPeak)
    (hp : p ∈ peak_candidates g) :
    1 ≤ p.freqBin ∧ p.freqBin ≤ g.freqBins - 2 ∧
    1 ≤ p.timeFrame ∧ p.timeFrame ≤ g.timeFrames - 2 ∧
    1/10 < p.magnitude ∧
    p.magnitude = g.data p.freqBin p.timeFrame ∧
    g.data (p.freqBin - 1) p.timeFrame < p.magnitude ∧
    g.data (p.freqBin + 1) p.timeFrame < p.magnitude ∧
    g.data p.freqBin (p.timeFrame - 1) < p.magnitude ∧
    g.data p.freqBin (p.timeFrame + 1) < p.magnitude := by
  simp only [peak_candidates, List.mem_flatMap, List.mem_filterMap] at hp
  obtain ⟨t, ht, f, hf, heq⟩ := hp
  rw [List.mem_range'] at ht
  rw [List.mem_range'] at hf
  obtain ⟨it, hit, htv⟩ := ht
  obtain ⟨jf, hjf, hfv⟩ := hf
  split_ifs at heq with hc
  · obtain ⟨h01, hl, hr, hd, hu⟩ := hc
    have hpeq : p = ⟨f, t, g.data f t⟩ := by
      injection heq with h
      exact h.symm
    subst hpeq
    have h1 : 1 ≤ f := by omega
    have h2 : f ≤ g.freqBins - 2 := by omega
    have h3 : 1 ≤ t := by omega
    have h4 : t ≤ g.timeFrames - 2 := by omega
    exact ⟨h1, h2, h3, h4, h01, rfl, hl, hr, hd, hu⟩

/-- C5: every peak returned by find_spectral_peaks is an interior cell
(1 ≤ f ≤ F−2, 1 ≤ t ≤ T−2), carries the magnitude of its cell, exceeds
the 0.1 floor, strictly exceeds its four orthogonal neighbors, and at
most 200 peaks are returned. -/
theorem c5_peaks_interior_capped (g : Spectrogram) :
    (∀ p ∈ find_spectral_peaks g,
      1 ≤ p.freqBin ∧ p.freqBin ≤ g.freqBins - 2 ∧
      1 ≤ p.timeFrame ∧ p.timeFrame ≤ g.timeFrames - 2 ∧
      1/10 < p.magnitude ∧
      p.magnitude = g.data p.freqBin p.timeFrame ∧
      g.data (p.freqBin - 1) p.timeFrame < p.magnitude ∧
      g.data (p.freqBin + 1) p.timeFrame < p.magnitude ∧
      g.data p.freqBin (p.timeFrame - 1) < p.magnitude ∧
      g.data p.freqBin (p.timeFrame + 1) < p.magnitude) ∧
    (find_spectral_peaks g).length ≤ 200 := by
  constructor
  · intro p hp
    have hmem : p ∈ peak_candidates g :=
      (mem_sort_desc p _).mp (List.mem_of_mem_take hp)
    exact mem_peak_candidates g p hmem
  · unfold find_spectral_peaks
    exact List.length_take_le 200 (sort_desc (peak_candidates g))

/-- C5 witness: a 3×3 spectrogram with a single bump at the center cell;
its returned peak satisfies the floor clause. -/
theorem c5_peaks_witness :
    (⟨1, 1, 1⟩ : SpectralPeak) ∈
      find_spectral_peaks ⟨3, 3, fun f t => if f = 1 ∧ t = 1 then 1 else 0⟩ ∧
    1/10 < (⟨1, 1, 1⟩ : SpectralPeak).magnitude := by
  have hmem : (⟨1, 1, 1⟩ : SpectralPeak) ∈
      find_spectral_peaks ⟨3, 3, fun f t => if f = 1 ∧ t = 1 then 1 else 0⟩ := by
    norm_num [find_spectral_peaks, peak_candidates, sort_desc, insert_desc, List.range',
      List.filterMap_cons, List.take]
  exact ⟨hmem,
    ((c5_peaks_interior_capped ⟨3, 3, fun f t => if f = 1 ∧ t = 1 then 1 else 0⟩).1 _
      hmem).2.2.2.2.1⟩

/-! ### Unfolding equations (zeta-reduced forms of the definitions) -/

lemma normalize_audio_eq (s : List ℚ) :
    normalize_audio s =
      if s = [] then []
      else if max_amplitude s = 0 then s
      else s.map (fun x => x / max_amplitude s) := rfl

lemma compute_spectrogram_timeFrames (mag : List ℚ → Nat → ℚ) (samples : List ℚ) :
    (compute_spectrogram mag samples).timeFrames = (samples.length - 1024) / 512 + 1 := rfl

lemma compute_spectrogram_data (mag : List ℚ → Nat → ℚ) (samples : List ℚ) (f t : Nat) :
    (compute_spectrogram mag samples).data f t =
      if f < 512 ∧ t < (samples.length - 1024) / 512 + 1 ∧ t * 512 < samples.length - 1024
      then mag ((samples.drop (t * 512)).take 1024) f
      else 0 := rfl

lemma generate_fingerprint_eq (mag : List ℚ → Nat → ℚ) (samples : List ℚ) :
    generate_fingerprint mag samples =
      if samples = [] then .error "Empty audio samples"
      else .ok ⟨generate_hashes (find_spectral_peaks
          (compute_spectrogram mag (downsample (normalize_audio samples) 44100 11025))),
        (samples.length : ℚ) / 44100⟩ := rfl

/-! ### Preconditioner lemmas -/

lemma length_normalize_audio (s : List ℚ) : (normalize_audio s).length = s.length := by
  rw [normalize_audio_eq]
  split_ifs with h1 h2
  · rw [h1]
  · rfl
  · simp

lemma downsample_eq (s : List ℚ) (o t : Nat) :
    downsample s o t =
      if o ≤ t then s
      else (List.range ⌊(s.length : ℚ) / ((o : ℚ) / (t : ℚ))⌋₊).map
        (fun (i : Nat) => s.getD ⌊(i : ℚ) * ((o : ℚ) / (t : ℚ))⌋₊ 0) := rfl

lemma length_downsample_4 (s : List ℚ) : (downsample s 44100 11025).length = s.length / 4 := by
  rw [downsample_eq, if_neg (by norm_num), List.length_map, List.length_range]
  have hr : ((44100 : ℕ) : ℚ) / ((11025 : ℕ) : ℚ) = ((4 : ℕ) : ℚ) := by norm_num
  rw [hr, Nat.floor_div_nat, Nat.floor_natCast]

lemma foldl_amp_init_le (s : List ℚ) : ∀ a : ℚ, a ≤ s.foldl (fun m x => max m |x|) a := by
  induction s with
  | nil => intro a; exact le_refl a
  | cons x rest ih =>
    intro a
    simp only [List.foldl_cons]
    exact le_trans (le_max_left a |x|) (ih (max a |x|))

lemma foldl_amp_div (M : ℚ) (hM : 0 < M) (s : List ℚ) :
    ∀ a : ℚ, (s.map (fun x => x / M)).foldl (fun m x => max m |x|) (a / M) =
      (s.foldl (fun m x => max m |x|) a) / M := by
  induction s with
  | nil => intro a; rfl
  | cons x rest ih =>
    intro a
    simp only [List.map_cons, List.foldl_cons]
    rw [abs_div, abs_of_pos hM, max_div_div_right (le_of_lt hM), ih]

lemma max_amplitude_normalize (s : List ℚ) (h : max_amplitude s ≠ 0) :
    max_amplitude (s.map (fun x => x / max_amplitude s)) = 1 := by
  have hM : 0 < max_amplitude s :=
    lt_of_le_of_ne (foldl_amp_init_le s 0) (Ne.symm h)
  have key : max_amplitude (s.map (fun x => x / max_amplitude s)) =
      max_amplitude s / max_amplitude s := by
    have h2 := foldl_amp_div (max_amplitude s) hM s 0
    rw [zero_div] at h2
    exact h2
  rw [key]
  exact div_self h

/-- C9: normalize_audio returns empty on empty input, returns silent
input unchanged, and otherwise divides by the peak amplitude so that the
output peak amplitude is exactly 1 (exact rational model of the f32
arithmetic). -/
theorem c9_normalize_spec (s : List ℚ) :
    normalize_audio ([] : List ℚ) = [] ∧
    (max_amplitude s = 0 → normalize_audio s = s) ∧
    (max_amplitude s ≠ 0 →
      normalize_audio s = s.map (fun x => x / max_amplitude s) ∧
      max_amplitude (normalize_audio s) = 1) := by
  refine ⟨rfl, ?_, ?_⟩
  · intro h
    rw [normalize_audio_eq]
    split_ifs with h1
    · rw [h1]
    · rfl
  · intro h
    have hne : s ≠ [] := by
      intro he
      exact h (by rw [he]; rfl)
    have hmap : normalize_audio s = s.map (fun x => x / max_amplitude s) := by
      rw [normalize_audio_eq, if_neg hne, if_neg h]
    refine ⟨hmap, ?_⟩
    rw [hmap]
    exact max_amplitude_normalize s h

/-- C9 witness: the clause for non-silent input evaluated on [1, -2]
(peak amplitude 2). -/
theorem c9_normalize_witness :
    max_amplitude [1, -2] ≠ 0 ∧
    (normalize_audio [1, -2] = ([1, -2] : List ℚ).map (fun x => x / max_amplitude [1, -2]) ∧
     max_amplitude (normalize_audio [1, -2]) = 1) := by
  have h : max_amplitude ([1, -2] : List ℚ) ≠ 0 := by
    norm_num [max_amplitude]
  exact ⟨h, (c9_normalize_spec [1, -2]).2.2 h⟩

/-! ### Spectrogram and short-clip lemmas -/

lemma peak_candidates_short (g : Spectrogram) (h : g.timeFrames ≤ 2) :
    peak_candidates g = [] := by
  unfold peak_candidates
  have hz : g.timeFrames - 1 - 1 = 0 := by omega
  rw [hz]
  rfl

lemma generate_fingerprint_short (mag : List ℚ → Nat → ℚ) (samples : List ℚ)
    (h1 : samples ≠ [])
    (h2 : (downsample (normalize_audio samples) 44100 11025).length < 1024) :
    generate_fingerprint mag samples = .ok ⟨[], (samples.length : ℚ) / 44100⟩ := by
  rw [generate_fingerprint_eq, if_neg h1]
  have hT : (compute_spectrogram mag
      (downsample (normalize_audio samples) 44100 11025)).timeFrames = 1 := by
    rw [compute_spectrogram_timeFrames]
    omega
  have hpc : peak_candidates (compute_spectrogram mag
      (downsample (normalize_audio samples) 44100 11025)) = [] :=
    peak_candidates_short _ (by rw [hT]; omega)
  have hfp : find_spectral_peaks (compute_spectrogram mag
      (downsample (normalize_audio samples) 44100 11025)) = [] := by
    unfold find_spectral_peaks
    rw [hpc]
    rfl
  rw [hfp]
  rfl

/-- C2 counterexample: the one-sample clip [1] resamples to the empty
buffer (fewer than W = 1024 samples), yet generate_fingerprint succeeds
with an empty hash list instead of failing: compute_spectrogram has no
error path (it yields one all-zero frame), so no TooShort rejection
exists in the code. -/
theorem c2_short_clip_counterexample :
    generate_fingerprint (fun _ _ => 0) [1] = .ok ⟨[], 1 / 44100⟩ := by
  have h := generate_fingerprint_short (fun _ _ => 0) [1] (by simp)
    (by rw [length_downsample_4, length_normalize_audio]; norm_num)
  rw [h]
  norm_num

/-- C2 amended: for a nonempty clip whose resampled buffer has fewer
than W = 1024 samples, compute_spectrogram does not fail (it produces a
single all-zero frame) and generate_fingerprint returns a fingerprint
with an empty hash list; only an empty sample list is rejected. -/
theorem c2_short_clip_not_rejected (mag : List ℚ → Nat → ℚ) (samples : List ℚ)
    (h1 : samples ≠ [])
    (h2 : (downsample (normalize_audio samples) 44100 11025).length < 1024) :
    (compute_spectrogram mag (downsample (normalize_audio samples) 44100 11025)).timeFrames
        = 1 ∧
    generate_fingerprint mag samples = .ok ⟨[], (samples.length : ℚ) / 44100⟩ := by
  refine ⟨?_, generate_fingerprint_short mag samples h1 h2⟩
  rw [compute_spectrogram_timeFrames]
  omega

/-- C2 witness: the amended statement evaluated on the two-sample clip. -/
theorem c2_short_clip_witness :
    ([1, 1] : List ℚ) ≠ [] ∧
    (downsample (normalize_audio [1, 1]) 44100 11025).length < 1024 ∧
    generate_fingerprint (fun _ _ => 0) [1, 1] =
      .ok ⟨[], (([1, 1] : List ℚ).length : ℚ) / 44100⟩ := by
  have ha : ([1, 1] : List ℚ) ≠ [] := by simp
  have hb : (downsample (normalize_audio [1, 1]) 44100 11025).length < 1024 := by
    rw [length_downsample_4, length_normalize_audio]
    norm_num
  exact ⟨ha, hb, (c2_short_clip_not_rejected (fun _ _ => 0) [1, 1] ha hb).2⟩

/-- C4 counterexample: for the empty input (N = 0 < W) the spectrogram
has T = 1 columns, not the claimed T = 0; and for N = W = 1024 the single
column stays all-zero although the claim says it holds the magnitudes of
the frame starting at index 0 (here the model magnitude is the nonzero
constant 1). -/
theorem c4_shape_counterexample :
    (compute_spectrogram (fun _ _ => 0) []).timeFrames = 1 ∧ (1 : Nat) ≠ 0 ∧
    (compute_spectrogram (fun _ _ => (1 : ℚ)) (List.replicate 1024 0)).data 0 0 = 0 ∧
    (0 : ℚ) ≠ 1 := by
  have hlen : (List.replicate 1024 (0 : ℚ)).length = 1024 := by
    simp only [List.length_replicate]
  refine ⟨rfl, by norm_num, ?_, by norm_num⟩
  rw [compute_spectrogram_data, hlen]
  norm_num

/-- C4 amended: the spectrogram always has F = 512 rows; T =
⌊(N−W)/H⌋+1 for N ≥ W and T = 1 (not 0) for N < W; column t holds the
per-frame transform magnitudes of the frame starting at t·H whenever
t·H < N−W, and stays all-zero otherwise (in particular when N ≤ W and
for the final column when H exactly divides N−W). -/
theorem c4_spectrogram_shape (mag : List ℚ → Nat → ℚ) (samples : List ℚ) :
    (compute_spectrogram mag samples).freqBins = 512 ∧
    (1024 ≤ samples.length →
      (compute_spectrogram mag samples).timeFrames = (samples.length - 1024) / 512 + 1) ∧
    (samples.length < 1024 → (compute_spectrogram mag samples).timeFrames = 1) ∧
    (∀ f t, f < 512 → t * 512 < samples.length - 1024 →
      t < (compute_spectrogram mag samples).timeFrames ∧
      (compute_spectrogram mag samples).data f t =
        mag ((samples.drop (t * 512)).take 1024) f) ∧
    (∀ f t, ¬ (f < 512 ∧ t < (compute_spectrogram mag samples).timeFrames ∧
        t * 512 < samples.length - 1024) →
      (compute_spectrogram mag samples).data f t = 0) := by
  refine ⟨rfl, fun _ => rfl, ?_, ?_, ?_⟩
  · intro h
    rw [compute_spectrogram_timeFrames]
    omega
  · intro f t hf ht
    constructor
    · rw [compute_spectrogram_timeFrames]
      omega
    · rw [compute_spectrogram_data]
      rw [if_pos ⟨hf, by omega, ht⟩]
  · intro f t hns
    rw [compute_spectrogram_data]
    rw [compute_spectrogram_timeFrames] at hns
    rw [if_neg hns]

/-- C4 witness: a 1100-sample input has one frame; its column 0 is
computed from the frame starting at 0 (model magnitude: the bin index). -/
theorem c4_spectrogram_witness :
    0 * 512 < (List.replicate 1100 (0 : ℚ)).length - 1024 ∧
    (compute_spectrogram (fun _ f => (f : ℚ)) (List.replicate 1100 0)).data 3 0 = 3 := by
  have hcond : 0 * 512 < (List.replicate 1100 (0 : ℚ)).length - 1024 := by
    simp only [List.length_replicate]
    norm_num
  refine ⟨hcond, ?_⟩
  have h := (c4_spectrogram_shape (fun _ f => (f : ℚ)) (List.replicate 1100 0)).2.2.2.1 3 0
    (by norm_num) hcond
  rw [h.2]
  norm_num
